import Mathlib

/-!
Verification of the IEEE-488.2 block-reader and waveform-decoder core of the
ScopeControls repository (src/ScopeControlGui/scpi.py and src/ScopeControlGui.py).

The instrument session (a pyvisa resource) is an external collaborator; it is
modelled from the specification's interface contract (spec §6): a bounded read
`read_exact(n, timeout)` returns at most `n` bytes and "returns fewer bytes
only on timeout"; `read_raw` returns a non-empty chunk of whatever is pending
or signals a VISA timeout.  Delivery fragmentation is represented by an oracle
`frag : Nat → Nat` giving, for the k-th read issued on the session, how many
bytes the transport has delivered by the time that read completes.  Bytes are
modelled as `Nat` (values 0–255), byte strings as `List Nat`.
-/

/-- Errors that can escape the block reader.  `framingNdigits` and
`framingLength` model the two `RuntimeError("Malformed block header ...")`
raises (scpi.py:232 and scpi.py:238); `visaTimeout` models
`VisaIOError(-1073807339)` (VI_ERROR_TMO, scpi.py:247) and pyvisa timeouts. -/
inductive ScpiErr
  | framingNdigits
  | framingLength
  | visaTimeout
  deriving DecidableEq

deriving instance DecidableEq for Except

/-- Instrument session state: `buf` is the pending response byte stream,
`step` counts reads issued so far, `frag` is the delivery-fragmentation
oracle, `read_termination` and `timeout` are the pyvisa session attributes
mutated by the code under verification. -/
structure Session where
  buf : List Nat
  step : Nat
  frag : Nat → Nat
  read_termination : Option Nat
  timeout : Nat

/-- Bounded read of up to `n` bytes (`inst.read_bytes(n, break_on_termchar=False)`
under the spec §6 contract: at most `n` bytes, fewer only on timeout, i.e. when
the transport delivered fewer by the time the read completes). -/
def readExact (s : Session) (n : Nat) : List Nat × Session :=
  let k := min n (s.frag s.step)
  (s.buf.take k, { s with buf := s.buf.drop k, step := s.step + 1 })

/-- Chunk read (`inst.read_raw()`): returns a non-empty chunk of pending
bytes, or a VISA timeout error when nothing is delivered. -/
def readRaw (s : Session) : Except ScpiErr (List Nat) × Session :=
  let k := s.frag s.step
  let chunk := s.buf.take k
  let s' : Session := { s with buf := s.buf.drop k, step := s.step + 1 }
  if chunk.isEmpty then (Except.error ScpiErr.visaTimeout, s') else (Except.ok chunk, s')

/-- Loop body of `KeysightScope._drain_input` (scpi.py:167-173): repeatedly
`read_raw()` until a read returns nothing or times out.  Structural fuel
replaces the `while True`; every successful read consumes at least one byte,
so fuel `buf.length + 1` is provably sufficient. -/
def drainLoopF : Nat → Session → Session
  | 0, s => s
  | fuel + 1, s =>
    let r := readRaw s
    match r.1 with
    | Except.error _ => r.2
    | Except.ok _ => drainLoopF fuel r.2

/-- The method `KeysightScope._drain_input(timeout_ms)` (scpi.py:161-175):
temporarily lowers the session timeout, drains all pending chunks, and
restores the timeout in a `finally`. -/
def drainInput (s : Session) (timeout_ms : Nat) : Session :=
  let old_to := s.timeout
  let s1 : Session := { s with timeout := max 1 timeout_ms }
  let s2 := drainLoopF (s1.buf.length + 1) s1
  { s2 with timeout := old_to }

/-- Python `bytes.isdigit`: true iff the byte string is non-empty and every
byte is an ASCII decimal digit. -/
def bytesIsDigit (bs : List Nat) : Bool :=
  !bs.isEmpty && bs.all (fun b => 48 ≤ b && b ≤ 57)

/-- Python `int()` of an ASCII decimal digit string. -/
def digitsToNat (bs : List Nat) : Nat :=
  bs.foldl (fun acc b => 10 * acc + (b - 48)) 0

/-- Payload-accumulation loop of `_read_ieee_block` (scpi.py:242-249):
`while remaining > 0: chunk = read_bytes(remaining); if not chunk: raise
VisaIOError(TMO); payload.extend(chunk); remaining -= len(chunk)`.
Structural fuel replaces the `while`; every iteration consumes at least one
byte of `remaining`, so fuel equal to the initial `remaining` is provably
sufficient (see readPayloadF_fuel_irrel). -/
def readPayloadF : Nat → Session → Nat → Except ScpiErr (List Nat) × Session
  | _, s, 0 => (Except.ok [], s)
  | 0, s, _ + 1 => (Except.error ScpiErr.visaTimeout, s)
  | fuel + 1, s, remaining + 1 =>
    let r := readExact s (remaining + 1)
    if r.1.isEmpty then (Except.error ScpiErr.visaTimeout, r.2)
    else
      let q := readPayloadF fuel r.2 (remaining + 1 - r.1.length)
      match q.1 with
      | Except.ok more => (Except.ok (r.1 ++ more), q.2)
      | Except.error e => (Except.error e, q.2)

/-- The payload loop entered with `remaining = total_len`. -/
def readPayload (s : Session) (total_len : Nat) : Except ScpiErr (List Nat) × Session :=
  readPayloadF total_len s total_len

/-- Restoration of the saved `read_termination` (the `finally` at scpi.py:251-252). -/
def restoreRt (s : Session) (rt : Option Nat) : Session :=
  { s with read_termination := rt }

/-- The method `KeysightScope._read_ieee_block(cmd)` (scpi.py:199-260), with
the instrument's response to `cmd` supplied as `resp` (enqueued by the
`write`).  Faithful control flow: initial best-effort drain; save and null
out `read_termination`; read the `#` marker (non-`#` first byte falls back to
returning that byte plus one raw read); read and validate the digit count and
the length field; accumulate exactly `total_len` payload bytes; restore
`read_termination` on every exit path (`finally`); on the success path only,
drain a trailing terminator via `_drain_input(100)`. -/
def readIeeeBlock (s0 : Session) (resp : List Nat) : Except ScpiErr (List Nat) × Session :=
  let s1 := drainInput s0 50
  let old_rt := s1.read_termination
  let s2 : Session := { s1 with read_termination := none }
  let s3 : Session := { s2 with buf := s2.buf ++ resp }
  let r4 := readExact s3 1
  if r4.1 = [35] then
    let r5 := readExact r4.2 1
    if r5.1.length = 1 ∧ bytesIsDigit r5.1 = true then
      let ndigits := digitsToNat r5.1
      let r6 := readExact r5.2 ndigits
      if r6.1.length = ndigits ∧ bytesIsDigit r6.1 = true then
        let total_len := digitsToNat r6.1
        let r7 := readPayload r6.2 total_len
        match r7.1 with
        | Except.ok payload =>
          (Except.ok payload, drainInput (restoreRt r7.2 old_rt) 100)
        | Except.error e => (Except.error e, restoreRt r7.2 old_rt)
      else (Except.error ScpiErr.framingLength, restoreRt r6.2 old_rt)
    else (Except.error ScpiErr.framingNdigits, restoreRt r5.2 old_rt)
  else
    let r9 := readRaw r4.2
    match r9.1 with
    | Except.ok chunk => (Except.ok (r4.1 ++ chunk), restoreRt r9.2 old_rt)
    | Except.error e => (Except.error e, restoreRt r9.2 old_rt)

/-- Errors that can escape the waveform read and export paths. `shape` models
`RuntimeError("Unexpected preamble ...")` (scpi.py:500, ScopeControlGui.py:643);
`attributeError` models Python's `AttributeError` on the failed
`self._drain_after_block` attribute lookup; `noData` models
`RuntimeError("No data for ...")` (scpi.py:511); `valueError` models the
`ValueError` raised by `int()` on a non-numeric or empty byte slice
(scpi.py:434). -/
inductive WfErr
  | shape
  | attributeError
  | noData
  | valueError
  deriving DecidableEq

/-- Names of the methods of `class KeysightScope` (scpi.py), i.e. the `def`s
at class-body indentation.  `_drain_after_block` (scpi.py:177) is absent: its
`def` sits at the inner indentation level of `_drain_input`'s body, so it is
a local function of that method, not an attribute of the class. -/
def keysightScopeMethods : List String :=
  ["__init__", "list_resources", "connect", "_open_rm", "_try_alternate_rm",
   "ensure", "acq_is_stopped", "_drain_input", "_read_ieee_block",
   "tim_set_main", "tim_set_zoom", "single", "run", "stop", "chan_apply",
   "chan_read", "trig_apply", "meas_set_window", "meas_install", "meas_query",
   "meas_clear_all", "export_screenshot_png", "_read_waveform_binary",
   "wav_get_setup", "wav_set_setup", "export_all_channels_csv"]

/-- Python attribute lookup `self.<name>` on a `KeysightScope` instance:
succeeds iff the class defines a method of that name. -/
def hasMethod (name : String) : Bool :=
  keysightScopeMethods.contains name

/-- The call `self._drain_after_block()` (scpi.py:508 and scpi.py:441): an
`AttributeError` when the attribute lookup fails. -/
def callDrainAfterBlock : Except WfErr Unit :=
  if hasMethod "_drain_after_block" then Except.ok () else Except.error WfErr.attributeError

/-- Elementwise decode of a raw byte payload with the six preamble scaling
coefficients (scpi.py:513-515):
`y_vals = [(b - y_ref) * y_incr + y_orig for b in payload]` and
`t_vals = [x_orig + x_incr * (i - x_ref) for i in range(n)]`.
Instrument floats are modelled as rationals. -/
def decodeWaveform (xinc xorg xref yinc yorg yref : ℚ) (raw : List Nat) :
    List ℚ × List ℚ :=
  let y_vals := raw.map (fun b : Nat => ((b : ℚ) - yref) * yinc + yorg)
  let n := y_vals.length
  let t_vals := (List.range n).map (fun i : Nat => xorg + xinc * ((i : ℚ) - xref))
  (t_vals, y_vals)

/-- The decode stage of `KeysightScope._read_waveform_binary` (scpi.py:498-518),
taking the already-split preamble fields (as parsed numbers) and the payload
returned by the binary transfer.  Faithful order of operations: preamble
shape check (499), coefficient extraction (501-502), the post-block drain
call `self._drain_after_block()` (508), the empty-payload check (510), then
the elementwise decode (513-515). -/
def readWaveformBinaryCore (pre : List ℚ) (payload : List Nat) :
    Except WfErr (List ℚ × List ℚ) :=
  if pre.length < 10 then Except.error WfErr.shape
  else
    let xinc := pre.getD 4 0
    let xorg := pre.getD 5 0
    let xref := pre.getD 6 0
    let yinc := pre.getD 7 0
    let yorg := pre.getD 8 0
    let yref := pre.getD 9 0
    match callDrainAfterBlock with
    | Except.error e => Except.error e
    | Except.ok _ =>
      if payload.isEmpty then Except.error WfErr.noData
      else Except.ok (decodeWaveform xinc xorg xref yinc yorg yref payload)

/-- The scaling heuristic `need_scale(vals)` of `_read_waveform_ascii`
(ScopeControlGui.py:666-669):
`ints_like = sum(1 for v in vals[:100] if abs(v - round(v)) < 1e-6)` and
`return ints_like > 80 and (abs(yincr-1.0) > 1e-9 or abs(yorig) > 1e-12 or
abs(yref) > 1e-9)`.  Python's `round` rounds half-to-even; since the
comparison only asks whether the distance to the rounded value is below
`1e-6`, and at a tie that distance is `1/2` under every
round-to-nearest convention, `Rat.floor (v + 1/2)` is an equivalent nearest
integer here. -/
def need_scale (vals : List ℚ) (yincr yorig yref : ℚ) : Bool :=
  if vals.isEmpty then false
  else
    let ints_like :=
      ((vals.take 100).filter
        (fun v => decide (|v - (Rat.floor (v + 1/2) : ℚ)| < 1/1000000))).length
    decide (80 < ints_like) &&
      (decide (1/1000000000 < |yincr - 1|) || decide (1/1000000000000 < |yorig|) ||
       decide (1/1000000000 < |yref|))

/-- The decode stage of `_read_waveform_ascii` (ScopeControlGui.py:637-682),
taking the already-split preamble fields (as parsed numbers) and the list of
values parsed from the ASCII payload.  Faithful order: preamble shape check
(642), coefficient extraction (645-646), conditional scaling guarded by
`need_scale` (671-672), then the time vector
`t_vals = [xorig + (k - xref) * xincr for k in range(n)]` (676). -/
def readWaveformAsciiCore (pre : List ℚ) (y_in : List ℚ) :
    Except WfErr (List ℚ × List ℚ) :=
  if pre.length < 10 then Except.error WfErr.shape
  else
    let xincr := pre.getD 4 0
    let xorig := pre.getD 5 0
    let xref := pre.getD 6 0
    let yincr := pre.getD 7 0
    let yorig := pre.getD 8 0
    let yref := pre.getD 9 0
    let y_vals :=
      if need_scale y_in yincr yorig yref then
        y_in.map (fun v => (v - yref) * yincr + yorig)
      else y_in
    let n := y_vals.length
    let t_vals := (List.range n).map (fun k : Nat => xorig + ((k : ℚ) - xref) * xincr)
    Except.ok (t_vals, y_vals)

/-- Python `int()` applied to a byte-string slice: the parsed value when the
slice is a non-empty ASCII digit string, `none` for the `ValueError` raise on
an empty or non-numeric slice.  (Python's `int()` also accepts sign,
surrounding whitespace and inner underscores; the slices parsed by this
protocol are plain digit strings, for which this model is exact, and every
other header this code meets — empty slice, letter bytes — raises exactly as
modelled.) -/
def pyIntBytes (bs : List Nat) : Option Nat :=
  if bytesIsDigit bs then some (digitsToNat bs) else none

/-- The payload extraction of `KeysightScope.export_screenshot_png`
(scpi.py:433-437): when the response starts with `#`,
`nd = int(data[1:2]); length = int(data[2:2+nd]); start = 2+nd;
payload = data[start:start+length]`, where either `int()` raises
`ValueError` on an empty or non-digit slice; otherwise the whole response is
the payload. -/
def screenshotPayload (data : List Nat) : Except WfErr (List Nat) :=
  if data.take 1 = [35] then
    match pyIntBytes ((data.drop 1).take 1) with
    | none => Except.error WfErr.valueError
    | some nd =>
      match pyIntBytes ((data.drop 2).take nd) with
      | none => Except.error WfErr.valueError
      | some length => Except.ok ((data.drop (2 + nd)).take length)
  else Except.ok data

/-- The method `KeysightScope.export_screenshot_png` (scpi.py:429-442),
applied to the raw response `data`: header parsing (whose `int()` failures
propagate to the caller), the file write, then
`try: self._drain_after_block() except Exception: pass` — the failed
attribute lookup is swallowed, so the export never surfaces it. -/
def exportScreenshotPng (data : List Nat) : Except WfErr (List Nat) :=
  match screenshotPayload data with
  | Except.error e => Except.error e
  | Except.ok payload =>
    match callDrainAfterBlock with
    | Except.ok _ => Except.ok payload
    | Except.error _ => Except.ok payload

lemma readExact_snd (s : Session) (n : Nat) :
    (readExact s n).2 =
      ⟨s.buf.drop (min n (s.frag s.step)), s.step + 1, s.frag,
       s.read_termination, s.timeout⟩ := rfl

lemma readRaw_snd (s : Session) :
    (readRaw s).2 =
      ⟨s.buf.drop (s.frag s.step), s.step + 1, s.frag,
       s.read_termination, s.timeout⟩ := by
  by_cases h : (s.buf.take (s.frag s.step)).isEmpty <;> simp [readRaw, h]

lemma drainLoopF_shape (fuel : Nat) :
    ∀ s : Session, ∃ b m,
      drainLoopF fuel s = ⟨b, m, s.frag, s.read_termination, s.timeout⟩ := by
  induction fuel with
  | zero => exact fun s => ⟨s.buf, s.step, rfl⟩
  | succ n ih =>
    intro s
    unfold drainLoopF
    cases h : (readRaw s).1 with
    | error e =>
      refine ⟨(readRaw s).2.buf, (readRaw s).2.step, ?_⟩
      simp only [h, readRaw_snd]
    | ok c =>
      obtain ⟨b, m, hh⟩ := ih (readRaw s).2
      rw [readRaw_snd] at hh
      refine ⟨b, m, ?_⟩
      simp only [h, readRaw_snd]
      exact hh

lemma drainInput_shape (s : Session) (t : Nat) :
    ∃ b m, drainInput s t = ⟨b, m, s.frag, s.read_termination, s.timeout⟩ := by
  unfold drainInput
  obtain ⟨b, m, hh⟩ :=
    drainLoopF_shape (s.buf.length + 1) { s with timeout := max 1 t }
  exact ⟨b, m, by simp only [hh]⟩

lemma drainInput_rt (s : Session) (t : Nat) :
    (drainInput s t).read_termination = s.read_termination := by
  obtain ⟨b, m, hh⟩ := drainInput_shape s t
  rw [hh]

lemma readPayloadF_shape (fuel : Nat) :
    ∀ (s : Session) (remaining : Nat), ∃ b m,
      (readPayloadF fuel s remaining).2 =
        ⟨b, m, s.frag, s.read_termination, s.timeout⟩ := by
  induction fuel with
  | zero =>
    intro s remaining
    cases remaining with
    | zero => exact ⟨s.buf, s.step, rfl⟩
    | succ r => exact ⟨s.buf, s.step, rfl⟩
  | succ n ih =>
    intro s remaining
    cases remaining with
    | zero => exact ⟨s.buf, s.step, rfl⟩
    | succ r =>
      unfold readPayloadF
      by_cases he : (readExact s (r + 1)).1.isEmpty
      · refine ⟨(readExact s (r + 1)).2.buf, (readExact s (r + 1)).2.step, ?_⟩
        simp only [he, if_true, readExact_snd]
      · obtain ⟨b, m, hh⟩ :=
          ih (readExact s (r + 1)).2 (r + 1 - (readExact s (r + 1)).1.length)
        rw [readExact_snd] at hh
        refine ⟨b, m, ?_⟩
        simp only [he, if_false, Bool.false_eq_true]
        cases hq :
            (readPayloadF n (readExact s (r + 1)).2
              (r + 1 - (readExact s (r + 1)).1.length)).1 with
        | ok more => simp only [hq, hh, readExact_snd]
        | error e => simp only [hq, hh, readExact_snd]

lemma readPayload_shape (s : Session) (total_len : Nat) :
    ∃ b m, (readPayload s total_len).2 =
      ⟨b, m, s.frag, s.read_termination, s.timeout⟩ :=
  readPayloadF_shape total_len s total_len

lemma drainInput_nil (step : Nat) (frag : Nat → Nat) (rt : Option Nat)
    (tmo t : Nat) :
    drainInput ⟨[], step, frag, rt, tmo⟩ t = ⟨[], step + 1, frag, rt, tmo⟩ := by
  simp [drainInput, drainLoopF, readRaw]

lemma readExact_prefix (l rest : List Nat) (step : Nat) (frag : Nat → Nat)
    (rt : Option Nat) (tmo n : Nat) (hl : l.length = n) (hf : n ≤ frag step) :
    readExact ⟨l ++ rest, step, frag, rt, tmo⟩ n =
      (l, ⟨rest, step + 1, frag, rt, tmo⟩) := by
  unfold readExact
  have hmin : min n (frag step) = n := min_eq_left hf
  simp [hmin, List.take_left' hl, List.drop_left' hl]

lemma readPayloadF_ok (fuel : Nat) :
    ∀ (payload rest : List Nat) (step : Nat) (frag : Nat → Nat)
      (rt : Option Nat) (tmo : Nat),
      (∀ k, 1 ≤ frag k) → payload.length ≤ fuel →
      ∃ m, readPayloadF fuel ⟨payload ++ rest, step, frag, rt, tmo⟩ payload.length =
        (Except.ok payload, ⟨rest, m, frag, rt, tmo⟩) := by
  induction fuel with
  | zero =>
    intro payload rest step frag rt tmo hf hlen
    have hnil : payload = [] := List.length_eq_zero.mp (Nat.le_zero.mp hlen)
    subst hnil
    exact ⟨step, rfl⟩
  | succ n ih =>
    intro payload rest step frag rt tmo hf hlen
    cases payload with
    | nil => exact ⟨step, rfl⟩
    | cons a tl =>
      set k := min (tl.length + 1) (frag step) with hkdef
      have hk1 : 1 ≤ k := le_min (Nat.succ_le_succ (Nat.zero_le _)) (hf step)
      have hkle : k ≤ tl.length + 1 := min_le_left _ _
      have hkle' : k ≤ (a :: tl).length := by simpa using hkle
      have htake : ((a :: tl) ++ rest).take k = (a :: tl).take k :=
        List.take_append_of_le_length hkle'
      have hdrop : ((a :: tl) ++ rest).drop k = (a :: tl).drop k ++ rest :=
        List.drop_append_of_le_length hkle'
      have hchunklen : ((a :: tl).take k).length = k := by
        rw [List.length_take]
        exact min_eq_left hkle'
      have hchunkne : ((a :: tl).take k).isEmpty = false := by
        rcases hcase : (a :: tl).take k with _ | _
        · rw [hcase] at hchunklen
          simp at hchunklen
          omega
        · rfl
      have hremlen : ((a :: tl).drop k).length = tl.length + 1 - k := by
        rw [List.length_drop]
        simp
      have hrem_le : ((a :: tl).drop k).length ≤ n := by
        rw [hremlen]
        have : tl.length + 1 ≤ n + 1 := by simpa using hlen
        omega
      obtain ⟨m, hm⟩ := ih ((a :: tl).drop k) rest (step + 1) frag rt tmo hf hrem_le
      refine ⟨m, ?_⟩
      have hre : readExact ⟨(a :: tl) ++ rest, step, frag, rt, tmo⟩ (tl.length + 1) =
          ((a :: tl).take k, ⟨(a :: tl).drop k ++ rest, step + 1, frag, rt, tmo⟩) := by
        unfold readExact
        rw [← hkdef]
        simp only [htake, hdrop]
      show readPayloadF (n + 1) ⟨(a :: tl) ++ rest, step, frag, rt, tmo⟩
          ((a :: tl).length) = _
      simp only [List.length_cons]
      rw [readPayloadF]
      simp only [hre, hchunkne, Bool.false_eq_true, if_false, hchunklen]
      rw [show tl.length + 1 - k = ((a :: tl).drop k).length from hremlen.symm]
      simp only [hm, List.take_append_drop]

lemma readPayloadF_timeout (fuel : Nat) :
    ∀ (s : Session) (remaining : Nat),
      remaining ≤ fuel → s.buf.length < remaining →
      ∃ s', readPayloadF fuel s remaining = (Except.error ScpiErr.visaTimeout, s') := by
  induction fuel with
  | zero =>
    intro s remaining hle hlt
    omega
  | succ n ih =>
    intro s remaining hle hlt
    cases remaining with
    | zero => omega
    | succ r =>
      rw [readPayloadF]
      by_cases he : (readExact s (r + 1)).1.isEmpty
      · exact ⟨(readExact s (r + 1)).2, by simp only [he, if_true]⟩
      · have hchunk1 : 1 ≤ (readExact s (r + 1)).1.length := by
          rcases hc : (readExact s (r + 1)).1 with _ | _
          · rw [hc] at he
            simp at he
          · simp
        have hchunkle : (readExact s (r + 1)).1.length ≤ s.buf.length := by
          show (s.buf.take (min (r + 1) (s.frag s.step))).length ≤ s.buf.length
          rw [List.length_take]
          exact min_le_right _ _
        have hbuf' : (readExact s (r + 1)).2.buf.length
            < r + 1 - (readExact s (r + 1)).1.length := by
          rw [readExact_snd]
          show (s.buf.drop (min (r + 1) (s.frag s.step))).length < _
          rw [List.length_drop]
          have : (readExact s (r + 1)).1.length = min (min (r + 1) (s.frag s.step)) s.buf.length := by
            show (s.buf.take (min (r + 1) (s.frag s.step))).length = _
            rw [List.length_take]
          omega
        have hle' : r + 1 - (readExact s (r + 1)).1.length ≤ n := by omega
        obtain ⟨s', hs'⟩ :=
          ih (readExact s (r + 1)).2 (r + 1 - (readExact s (r + 1)).1.length) hle' hbuf'
        refine ⟨(readPayloadF n (readExact s (r + 1)).2
          (r + 1 - (readExact s (r + 1)).1.length)).2, ?_⟩
        simp only [he, Bool.false_eq_true, if_false, hs']

lemma readPayloadF_fuel_irrel (fuel : Nat) :
    ∀ (fuel' remaining : Nat) (s : Session),
      remaining ≤ fuel → remaining ≤ fuel' →
      readPayloadF fuel s remaining = readPayloadF fuel' s remaining := by
  induction fuel with
  | zero =>
    intro fuel' remaining s hle hle'
    have : remaining = 0 := Nat.le_zero.mp hle
    subst this
    cases fuel' <;> rfl
  | succ n ih =>
    intro fuel' remaining s hle hle'
    cases remaining with
    | zero => cases fuel' <;> rfl
    | succ r =>
      cases fuel' with
      | zero => omega
      | succ n' =>
        rw [readPayloadF, readPayloadF]
        by_cases he : (readExact s (r + 1)).1.isEmpty
        · simp only [he, if_true]
        · simp only [he, Bool.false_eq_true, if_false]
          have hchunk1 : 1 ≤ (readExact s (r + 1)).1.length := by
            rcases hc : (readExact s (r + 1)).1 with _ | _
            · rw [hc] at he
              simp at he
            · simp
          have hrec := ih n' (r + 1 - (readExact s (r + 1)).1.length)
            (readExact s (r + 1)).2 (by omega) (by omega)
          rw [hrec]

lemma drainLoopF_drains (fuel : Nat) :
    ∀ s : Session, s.buf.length < fuel → (∀ k, 1 ≤ s.frag k) →
      (drainLoopF fuel s).buf = [] := by
  induction fuel with
  | zero =>
    intro s hlt hf
    omega
  | succ n ih =>
    intro s hlt hf
    unfold drainLoopF
    cases hb : s.buf with
    | nil =>
      have hraw : (readRaw s).1 = Except.error ScpiErr.visaTimeout := by
        unfold readRaw
        simp [hb]
      simp only [hraw, readRaw_snd, hb, List.drop_nil]
    | cons a tl =>
      have hne : ¬ (s.buf.take (s.frag s.step)).isEmpty = true := by
        rw [List.isEmpty_iff]
        intro hcon
        have h1 := hf s.step
        have : (s.buf.take (s.frag s.step)).length = 0 := by rw [hcon]; rfl
        rw [List.length_take, hb] at this
        simp at this
        omega
      have hraw : (readRaw s).1 = Except.ok (s.buf.take (s.frag s.step)) := by
        unfold readRaw
        simp [hne]
      simp only [hraw]
      apply ih
      · rw [readRaw_snd]
        show (s.buf.drop (s.frag s.step)).length < n
        rw [List.length_drop]
        have h1 := hf s.step
        have : s.buf.length ≤ n := by omega
        have hpos : 0 < s.buf.length := by rw [hb]; simp
        omega
      · rw [readRaw_snd]
        exact hf

lemma drainInput_drains (s : Session) (t : Nat) (hf : ∀ k, 1 ≤ s.frag k) :
    (drainInput s t).buf = [] := by
  unfold drainInput
  have := drainLoopF_drains (s.buf.length + 1) { s with timeout := max 1 t }
    (by simp) hf
  simp only [this]

lemma bytesIsDigit_single (nd : Nat) (h : nd ≤ 9) :
    bytesIsDigit [48 + nd] = true := by
  simp [bytesIsDigit]
  omega

lemma digitsToNat_single (nd : Nat) : digitsToNat [48 + nd] = nd := by
  simp [digitsToNat]

lemma readIeeeBlock_ok (frag : Nat → Nat) (rt : Option Nat) (tmo nd : Nat)
    (lenField payload rest : List Nat)
    (hf : ∀ k, 1 ≤ frag k) (hnd9 : nd ≤ 9)
    (hlf_len : lenField.length = nd) (hlf_dig : bytesIsDigit lenField = true)
    (hfrag3 : nd ≤ frag 3)
    (hpay : payload.length = digitsToNat lenField) :
    ∃ final : Session,
      readIeeeBlock ⟨[], 0, frag, rt, tmo⟩
        (35 :: (48 + nd) :: (lenField ++ (payload ++ rest))) =
        (Except.ok payload, final) ∧ final.buf = [] ∧
        final.read_termination = rt := by
  have h1 : drainInput ⟨[], 0, frag, rt, tmo⟩ 50 = ⟨[], 1, frag, rt, tmo⟩ :=
    drainInput_nil 0 frag rt tmo 50
  have h4 : readExact ⟨35 :: (48 + nd) :: (lenField ++ (payload ++ rest)),
      1, frag, none, tmo⟩ 1 =
      ([35], ⟨(48 + nd) :: (lenField ++ (payload ++ rest)), 2, frag, none, tmo⟩) :=
    readExact_prefix [35] _ 1 frag none tmo 1 rfl (hf 1)
  have h5 : readExact ⟨(48 + nd) :: (lenField ++ (payload ++ rest)),
      2, frag, none, tmo⟩ 1 =
      ([48 + nd], ⟨lenField ++ (payload ++ rest), 3, frag, none, tmo⟩) :=
    readExact_prefix [48 + nd] _ 2 frag none tmo 1 rfl (hf 2)
  have h6 : readExact ⟨lenField ++ (payload ++ rest), 3, frag, none, tmo⟩ nd =
      (lenField, ⟨payload ++ rest, 4, frag, none, tmo⟩) :=
    readExact_prefix lenField _ 3 frag none tmo nd hlf_len hfrag3
  obtain ⟨m, hm⟩ := readPayloadF_ok payload.length payload rest 4 frag none tmo
    hf (Nat.le_refl _)
  have hrp : readPayload ⟨payload ++ rest, 4, frag, none, tmo⟩
      (digitsToNat lenField) =
      (Except.ok payload, ⟨rest, m, frag, none, tmo⟩) := by
    rw [← hpay]
    exact hm
  simp only [readIeeeBlock, h1, List.nil_append, h4, h5, h6,
    digitsToNat_single]
  rw [if_pos trivial, if_pos ⟨rfl, bytesIsDigit_single nd hnd9⟩,
    if_pos ⟨hlf_len, hlf_dig⟩, hrp]
  refine ⟨drainInput (restoreRt ⟨rest, m, frag, none, tmo⟩ rt) 100, rfl, ?_, ?_⟩
  · exact drainInput_drains _ 100 hf
  · exact drainInput_rt _ 100

lemma readIeeeBlock_nondigit_nd (frag : Nat → Nat) (rt : Option Nat)
    (tmo d : Nat) (rest : List Nat)
    (hf : ∀ k, 1 ≤ frag k) (hd : ¬(48 ≤ d ∧ d ≤ 57)) :
    (readIeeeBlock ⟨[], 0, frag, rt, tmo⟩ (35 :: d :: rest)).1 =
      Except.error ScpiErr.framingNdigits := by
  have h1 : drainInput ⟨[], 0, frag, rt, tmo⟩ 50 = ⟨[], 1, frag, rt, tmo⟩ :=
    drainInput_nil 0 frag rt tmo 50
  have h4 : readExact ⟨35 :: d :: rest, 1, frag, none, tmo⟩ 1 =
      ([35], ⟨d :: rest, 2, frag, none, tmo⟩) :=
    readExact_prefix [35] _ 1 frag none tmo 1 rfl (hf 1)
  have h5 : readExact ⟨d :: rest, 2, frag, none, tmo⟩ 1 =
      ([d], ⟨rest, 3, frag, none, tmo⟩) :=
    readExact_prefix [d] _ 2 frag none tmo 1 rfl (hf 2)
  have hdig : bytesIsDigit [d] = false := by
    simp [bytesIsDigit]
    omega
  simp only [readIeeeBlock, h1, List.nil_append, h4, h5]
  rw [if_pos trivial, if_neg (fun hcon => by rw [hdig] at hcon; exact absurd hcon.2 (by simp))]

lemma readIeeeBlock_nondigit_len (frag : Nat → Nat) (rt : Option Nat)
    (tmo nd : Nat) (lenField rest : List Nat)
    (hf : ∀ k, 1 ≤ frag k) (hnd9 : nd ≤ 9)
    (hlf_len : lenField.length = nd) (hfrag3 : nd ≤ frag 3)
    (hlf : bytesIsDigit lenField = false) :
    (readIeeeBlock ⟨[], 0, frag, rt, tmo⟩
      (35 :: (48 + nd) :: (lenField ++ rest))).1 =
      Except.error ScpiErr.framingLength := by
  have h1 : drainInput ⟨[], 0, frag, rt, tmo⟩ 50 = ⟨[], 1, frag, rt, tmo⟩ :=
    drainInput_nil 0 frag rt tmo 50
  have h4 : readExact ⟨35 :: (48 + nd) :: (lenField ++ rest),
      1, frag, none, tmo⟩ 1 =
      ([35], ⟨(48 + nd) :: (lenField ++ rest), 2, frag, none, tmo⟩) :=
    readExact_prefix [35] _ 1 frag none tmo 1 rfl (hf 1)
  have h5 : readExact ⟨(48 + nd) :: (lenField ++ rest), 2, frag, none, tmo⟩ 1 =
      ([48 + nd], ⟨lenField ++ rest, 3, frag, none, tmo⟩) :=
    readExact_prefix [48 + nd] _ 2 frag none tmo 1 rfl (hf 2)
  have h6 : readExact ⟨lenField ++ rest, 3, frag, none, tmo⟩ nd =
      (lenField, ⟨rest, 4, frag, none, tmo⟩) :=
    readExact_prefix lenField _ 3 frag none tmo nd hlf_len hfrag3
  simp only [readIeeeBlock, h1, List.nil_append, h4, h5, h6, digitsToNat_single]
  rw [if_pos trivial, if_pos ⟨rfl, bytesIsDigit_single nd hnd9⟩,
    if_neg (fun hcon => by rw [hlf] at hcon; exact absurd hcon.2 (by simp))]

lemma readIeeeBlock_payload_timeout (frag : Nat → Nat) (rt : Option Nat)
    (tmo nd : Nat) (lenField payloadPart : List Nat)
    (hf : ∀ k, 1 ≤ frag k) (hnd9 : nd ≤ 9)
    (hlf_len : lenField.length = nd) (hlf_dig : bytesIsDigit lenField = true)
    (hfrag3 : nd ≤ frag 3)
    (hshort : payloadPart.length < digitsToNat lenField) :
    (readIeeeBlock ⟨[], 0, frag, rt, tmo⟩
      (35 :: (48 + nd) :: (lenField ++ payloadPart))).1 =
      Except.error ScpiErr.visaTimeout := by
  have h1 : drainInput ⟨[], 0, frag, rt, tmo⟩ 50 = ⟨[], 1, frag, rt, tmo⟩ :=
    drainInput_nil 0 frag rt tmo 50
  have h4 : readExact ⟨35 :: (48 + nd) :: (lenField ++ payloadPart),
      1, frag, none, tmo⟩ 1 =
      ([35], ⟨(48 + nd) :: (lenField ++ payloadPart), 2, frag, none, tmo⟩) :=
    readExact_prefix [35] _ 1 frag none tmo 1 rfl (hf 1)
  have h5 : readExact ⟨(48 + nd) :: (lenField ++ payloadPart),
      2, frag, none, tmo⟩ 1 =
      ([48 + nd], ⟨lenField ++ payloadPart, 3, frag, none, tmo⟩) :=
    readExact_prefix [48 + nd] _ 2 frag none tmo 1 rfl (hf 2)
  have h6 : readExact ⟨lenField ++ payloadPart, 3, frag, none, tmo⟩ nd =
      (lenField, ⟨payloadPart, 4, frag, none, tmo⟩) :=
    readExact_prefix lenField _ 3 frag none tmo nd hlf_len hfrag3
  obtain ⟨s', hs'⟩ := readPayloadF_timeout (digitsToNat lenField)
    ⟨payloadPart, 4, frag, none, tmo⟩ (digitsToNat lenField)
    (Nat.le_refl _) hshort
  have hrp : readPayload ⟨payloadPart, 4, frag, none, tmo⟩
      (digitsToNat lenField) = (Except.error ScpiErr.visaTimeout, s') := hs'
  simp only [readIeeeBlock, h1, List.nil_append, h4, h5, h6, digitsToNat_single]
  rw [if_pos trivial, if_pos ⟨rfl, bytesIsDigit_single nd hnd9⟩,
    if_pos ⟨hlf_len, hlf_dig⟩, hrp]

lemma const_frag_ge (c : Nat) (h : 1 ≤ c) :
    ∀ k : Nat, 1 ≤ (fun _ : Nat => c) k := fun _ => h

/-- Claim C1, counterexample.  The same well-formed response
`#` `2` `"13"` followed by 13 payload bytes yields a framing error under
1-byte-at-a-time delivery but the payload under whole-block delivery: the
read of the 2-digit length field (scpi.py:236) issues a single bounded read
and treats a partial result as a malformed header (scpi.py:237) instead of
reassembling it, so output is not independent of fragmentation. -/
theorem claim_C1_cex :
    (readIeeeBlock ⟨[], 0, fun _ => 1, some 10, 10000⟩
      ([35, 50, 49, 51] ++ List.replicate 13 7)).1 =
        Except.error ScpiErr.framingLength ∧
    (readIeeeBlock ⟨[], 0, fun _ => 1000, some 10, 10000⟩
      ([35, 50, 49, 51] ++ List.replicate 13 7)).1 =
        Except.ok (List.replicate 13 7) := by decide

/-- Claim C1, amended.  For every session response `#` `<nd>` `<lenField>`
`<payload>` `<rest>` with a digit count `nd` and an `nd`-digit length field
declaring `payload.length`, and every delivery pattern in which each bounded
read delivers at least one byte and the length field is delivered within its
single read (`nd ≤ frag 3`), `read_block` returns exactly the `L` declared
payload bytes — the same output for every such fragmentation, including
1-byte-at-a-time payload delivery.  (Without the length-field condition the
property fails: see the counterexample.) -/
theorem claim_C1 (frag : Nat → Nat) (rt : Option Nat) (tmo nd : Nat)
    (lenField payload rest : List Nat)
    (hf : ∀ k, 1 ≤ frag k) (hnd9 : nd ≤ 9)
    (hlf_len : lenField.length = nd) (hlf_dig : bytesIsDigit lenField = true)
    (hfrag3 : nd ≤ frag 3)
    (hpay : payload.length = digitsToNat lenField) :
    (readIeeeBlock ⟨[], 0, frag, rt, tmo⟩
      (35 :: (48 + nd) :: (lenField ++ (payload ++ rest)))).1 =
      Except.ok payload := by
  obtain ⟨final, heq, _, _⟩ :=
    readIeeeBlock_ok frag rt tmo nd lenField payload rest
      hf hnd9 hlf_len hlf_dig hfrag3 hpay
  rw [heq]

/-- Claim C1 witness: a block with a 3-digit length field `013`, a 13-byte
payload and a trailing LF, delivered in chunks of 7, returns exactly the 13
payload bytes. -/
theorem claim_C1_witness :
    (readIeeeBlock ⟨[], 0, fun _ => 7, some 10, 10000⟩
      (35 :: (48 + 3) :: ([48, 49, 51] ++ (List.replicate 13 1 ++ [10])))).1 =
      Except.ok (List.replicate 13 1) :=
  claim_C1 (fun _ => 7) (some 10) 10000 3 [48, 49, 51] (List.replicate 13 1)
    [10] (const_frag_ge 7 (by decide)) (by decide) (by decide) (by decide)
    (by decide) (by decide)

/-- Claim C3: a non-digit digit-count byte yields the ndigits framing error;
a length field containing a non-digit byte yields the length framing error;
a response exhausted before the declared payload length is accumulated (the
bounded read returns zero bytes) yields the VISA timeout error; and the
framing errors are distinct from the timeout error. -/
theorem claim_C3 :
    (∀ (frag : Nat → Nat) (rt : Option Nat) (tmo d : Nat) (rest : List Nat),
        (∀ k, 1 ≤ frag k) → ¬(48 ≤ d ∧ d ≤ 57) →
        (readIeeeBlock ⟨[], 0, frag, rt, tmo⟩ (35 :: d :: rest)).1 =
          Except.error ScpiErr.framingNdigits) ∧
    (∀ (frag : Nat → Nat) (rt : Option Nat) (tmo nd : Nat)
        (lenField rest : List Nat),
        (∀ k, 1 ≤ frag k) → nd ≤ 9 → lenField.length = nd → nd ≤ frag 3 →
        bytesIsDigit lenField = false →
        (readIeeeBlock ⟨[], 0, frag, rt, tmo⟩
          (35 :: (48 + nd) :: (lenField ++ rest))).1 =
          Except.error ScpiErr.framingLength) ∧
    (∀ (frag : Nat → Nat) (rt : Option Nat) (tmo nd : Nat)
        (lenField payloadPart : List Nat),
        (∀ k, 1 ≤ frag k) → nd ≤ 9 → lenField.length = nd →
        bytesIsDigit lenField = true → nd ≤ frag 3 →
        payloadPart.length < digitsToNat lenField →
        (readIeeeBlock ⟨[], 0, frag, rt, tmo⟩
          (35 :: (48 + nd) :: (lenField ++ payloadPart))).1 =
          Except.error ScpiErr.visaTimeout) ∧
    (ScpiErr.framingNdigits ≠ ScpiErr.visaTimeout ∧
     ScpiErr.framingLength ≠ ScpiErr.visaTimeout) := by
  refine ⟨?_, ?_, ?_, by decide, by decide⟩
  · intro frag rt tmo d rest hf hd
    exact readIeeeBlock_nondigit_nd frag rt tmo d rest hf hd
  · intro frag rt tmo nd lenField rest hf hnd9 hlen hfrag3 hlf
    exact readIeeeBlock_nondigit_len frag rt tmo nd lenField rest
      hf hnd9 hlen hfrag3 hlf
  · intro frag rt tmo nd lenField payloadPart hf hnd9 hlen hdig hfrag3 hshort
    exact readIeeeBlock_payload_timeout frag rt tmo nd lenField payloadPart
      hf hnd9 hlen hdig hfrag3 hshort

/-- Claim C3 witness: the spec scenario `#A500...` (digit count `A`) gives
the ndigits framing error; `#2` with length field `"1A"` gives the length
framing error; `#15` followed by only 3 payload bytes gives the timeout. -/
theorem claim_C3_witness :
    (readIeeeBlock ⟨[], 0, fun _ => 9, some 10, 5⟩
      (35 :: 65 :: [53, 48, 48])).1 = Except.error ScpiErr.framingNdigits ∧
    (readIeeeBlock ⟨[], 0, fun _ => 9, some 10, 5⟩
      (35 :: (48 + 2) :: ([49, 65] ++ []))).1 =
        Except.error ScpiErr.framingLength ∧
    (readIeeeBlock ⟨[], 0, fun _ => 9, some 10, 5⟩
      (35 :: (48 + 1) :: ([53] ++ [1, 2, 3]))).1 =
        Except.error ScpiErr.visaTimeout :=
  ⟨claim_C3.1 (fun _ => 9) (some 10) 5 65 [53, 48, 48]
      (const_frag_ge 9 (by decide)) (by decide),
   claim_C3.2.1 (fun _ => 9) (some 10) 5 2 [49, 65] []
      (const_frag_ge 9 (by decide)) (by decide) (by decide) (by decide) (by decide),
   claim_C3.2.2.1 (fun _ => 9) (some 10) 5 1 [53] [1, 2, 3]
      (const_frag_ge 9 (by decide)) (by decide) (by decide) (by decide) (by decide)
      (by decide)⟩

/-- Claim C4: on every exit path of `_read_ieee_block` — normal return,
non-`#` fallback return, framing errors, timeout — the session's
`read_termination` is restored to its value before the call. -/
theorem claim_C4 (s : Session) (resp : List Nat) :
    ((readIeeeBlock s resp).2).read_termination = s.read_termination := by
  simp only [readIeeeBlock]
  split
  · split
    · split
      · split <;> simp [restoreRt, drainInput_rt]
      · simp [restoreRt, drainInput_rt]
    · simp [restoreRt, drainInput_rt]
  · split <;> simp [restoreRt, drainInput_rt]

/-- Claim C5, counterexample.  After a block of exactly the declared length,
five unread bytes remain (an LF terminator followed by the four bytes of an
unrelated next reply).  The claim says the drain stops early whenever more
than 2 bytes appear unread; in fact `_read_ieee_block` calls
`_drain_input(100)` (scpi.py:256), which loops until a read returns nothing,
so all five bytes — including the start of the next reply — are consumed
(final buffer empty). -/
theorem claim_C5_cex :
    (readIeeeBlock ⟨[], 0, fun _ => 1000, some 10, 10000⟩
      ([35, 49, 51] ++ [1, 2, 3] ++ (10 :: [78, 69, 88, 84]))).1 =
        Except.ok [1, 2, 3] ∧
    ((readIeeeBlock ⟨[], 0, fun _ => 1000, some 10, 10000⟩
      ([35, 49, 51] ++ [1, 2, 3] ++ (10 :: [78, 69, 88, 84]))).2).buf = [] := by
  decide

/-- Claim C5, amended.  After reading exactly the declared payload length,
`read_block` best-effort drains the channel: it consumes a trailing
terminator so the next query starts clean, but it does not stop when more
than 2 bytes appear unread — it consumes every byte the transport delivers,
including any queued unrelated reply (the `> 2` early stop exists only in
the unreachable nested helper `_drain_after_block`). -/
theorem claim_C5 (frag : Nat → Nat) (rt : Option Nat) (tmo nd : Nat)
    (lenField payload rest : List Nat)
    (hf : ∀ k, 1 ≤ frag k) (hnd9 : nd ≤ 9)
    (hlf_len : lenField.length = nd) (hlf_dig : bytesIsDigit lenField = true)
    (hfrag3 : nd ≤ frag 3)
    (hpay : payload.length = digitsToNat lenField) :
    ∃ final : Session,
      readIeeeBlock ⟨[], 0, frag, rt, tmo⟩
        (35 :: (48 + nd) :: (lenField ++ (payload ++ rest))) =
        (Except.ok payload, final) ∧ final.buf = [] := by
  obtain ⟨final, heq, hbuf, _⟩ :=
    readIeeeBlock_ok frag rt tmo nd lenField payload rest
      hf hnd9 hlf_len hlf_dig hfrag3 hpay
  exact ⟨final, heq, hbuf⟩

/-- Claim C5 witness: a single trailing LF after the block is consumed, so
the channel is clean for the next command. -/
theorem claim_C5_witness :
    ∃ final : Session,
      readIeeeBlock ⟨[], 0, fun _ => 4, some 10, 10000⟩
        (35 :: (48 + 1) :: ([51] ++ ([1, 2, 3] ++ [10]))) =
        (Except.ok [1, 2, 3], final) ∧ final.buf = [] :=
  claim_C5 (fun _ => 4) (some 10) 10000 1 [51] [1, 2, 3] [10]
    (const_frag_ge 4 (by decide)) (by decide) (by decide) (by decide) (by decide)
    (by decide)

lemma readPayloadF_outcome (fuel : Nat) :
    ∀ (s : Session) (remaining : Nat), remaining ≤ fuel →
      (readPayloadF fuel s remaining).1 = Except.error ScpiErr.visaTimeout ∨
      ∃ bytes, (readPayloadF fuel s remaining).1 = Except.ok bytes ∧
        bytes.length = remaining := by
  induction fuel with
  | zero =>
    intro s remaining hle
    have : remaining = 0 := Nat.le_zero.mp hle
    subst this
    exact Or.inr ⟨[], rfl, rfl⟩
  | succ n ih =>
    intro s remaining hle
    cases remaining with
    | zero => exact Or.inr ⟨[], rfl, rfl⟩
    | succ r =>
      rw [readPayloadF]
      by_cases he : (readExact s (r + 1)).1.isEmpty
      · simp only [he, if_true]
        exact Or.inl trivial
      · simp only [he, Bool.false_eq_true, if_false]
        have hchunk1 : 1 ≤ (readExact s (r + 1)).1.length := by
          rcases hc : (readExact s (r + 1)).1 with _ | _
          · rw [hc] at he
            simp at he
          · simp
        have hchunkle : (readExact s (r + 1)).1.length ≤ r + 1 := by
          show (s.buf.take (min (r + 1) (s.frag s.step))).length ≤ r + 1
          rw [List.length_take]
          have h1 : min (r + 1) (s.frag s.step) ≤ r + 1 := min_le_left _ _
          have h2 : min (min (r + 1) (s.frag s.step)) s.buf.length ≤
              min (r + 1) (s.frag s.step) := min_le_left _ _
          omega
        rcases ih (readExact s (r + 1)).2 (r + 1 - (readExact s (r + 1)).1.length)
            (by omega) with herr | ⟨bytes, hok, hblen⟩
        · rw [herr]
          exact Or.inl rfl
        · rw [hok]
          refine Or.inr ⟨(readExact s (r + 1)).1 ++ bytes, rfl, ?_⟩
          rw [List.length_append, hblen]
          omega

/-- Claim C10: the payload-accumulation loop of `read_block` terminates for
every session behavior.  First conjunct: once the fuel bound reaches the
byte count the loop's result is independent of any further fuel, i.e. the
loop stabilizes within `remaining` iterations (each non-empty chunk strictly
decreases the remaining count).  Second conjunct: the loop's outcome is
always either the VISA timeout error (a bounded read made no progress) or
exactly `remaining` accumulated bytes. -/
theorem claim_C10 :
    (∀ (fuel fuel' : Nat) (s : Session) (remaining : Nat),
        remaining ≤ fuel → remaining ≤ fuel' →
        readPayloadF fuel s remaining = readPayloadF fuel' s remaining) ∧
    (∀ (s : Session) (remaining : Nat),
        (readPayload s remaining).1 = Except.error ScpiErr.visaTimeout ∨
        ∃ bytes, (readPayload s remaining).1 = Except.ok bytes ∧
          bytes.length = remaining) := by
  constructor
  · intro fuel fuel' s remaining hle hle'
    exact readPayloadF_fuel_irrel fuel fuel' remaining s hle hle'
  · intro s remaining
    exact readPayloadF_outcome remaining s remaining (Nat.le_refl _)

/-- Claim C10 witness: with 4 buffered bytes delivered 2 at a time, the
payload loop consumes 3 bytes with fuel 3 and identically with fuel 5. -/
theorem claim_C10_witness :
    readPayloadF 3 ⟨[1, 2, 3, 4], 0, fun _ => 2, none, 0⟩ 3 =
      readPayloadF 5 ⟨[1, 2, 3, 4], 0, fun _ => 2, none, 0⟩ 3 :=
  claim_C10.1 3 5 ⟨[1, 2, 3, 4], 0, fun _ => 2, none, 0⟩ 3 (by decide) (by decide)

/-- Claim C2: for every preamble coefficient assignment and every raw
unsigned-byte sample array, the binary waveform decode produces output
sequences of exactly the input length, with
`voltage_v[i] = (raw[i] - y_reference) * y_increment + y_origin` and
`time_s[i] = (i - x_reference) * x_increment + x_origin` at every index. -/
theorem claim_C2 (xinc xorg xref yinc yorg yref : ℚ) (raw : List Nat) :
    ((decodeWaveform xinc xorg xref yinc yorg yref raw).2).length = raw.length ∧
    ((decodeWaveform xinc xorg xref yinc yorg yref raw).1).length = raw.length ∧
    (∀ (i b : Nat), raw.get? i = some b →
      (decodeWaveform xinc xorg xref yinc yorg yref raw).2.get? i =
        some (((b : ℚ) - yref) * yinc + yorg)) ∧
    (∀ i : Nat, i < raw.length →
      (decodeWaveform xinc xorg xref yinc yorg yref raw).1.get? i =
        some (((i : ℚ) - xref) * xinc + xorg)) := by
  refine ⟨by simp [decodeWaveform], by simp [decodeWaveform], ?_, ?_⟩
  · intro i b hib
    show (raw.map (fun b : Nat => ((b : ℚ) - yref) * yinc + yorg)).get? i = _
    rw [List.get?_map, hib]
    rfl
  · intro i hi
    show ((List.range (raw.map
        (fun b : Nat => ((b : ℚ) - yref) * yinc + yorg)).length).map
        (fun j : Nat => xorg + xinc * ((j : ℚ) - xref))).get? i = _
    rw [List.get?_map, List.get?_range (by simpa using hi)]
    show some (xorg + xinc * ((i : ℚ) - xref)) = _
    rw [Option.some_inj]
    ring

/-- Claim C2 witness: the spec §8 scenario preamble (`y_increment = 0.04 =
1/25`, `y_origin = 0`, `y_reference = 128`) on raw bytes `[128, 0]`: code
128 decodes to 0 V, and the time of index 0 is `(0 - x_ref) * x_incr +
x_orig`. -/
theorem claim_C2_witness :
    (decodeWaveform 1 0 0 (1/25) 0 128 [128, 0]).2.get? 0 =
      some ((((128 : Nat) : ℚ) - 128) * (1/25) + 0) ∧
    (decodeWaveform 1 0 0 (1/25) 0 128 [128, 0]).1.get? 0 =
      some ((((0 : Nat) : ℚ) - 0) * 1 + 0) :=
  ⟨(claim_C2 1 0 0 (1/25) 0 128 [128, 0]).2.2.1 0 128 (by decide),
   (claim_C2 1 0 0 (1/25) 0 128 [128, 0]).2.2.2 0 (by decide)⟩

lemma screenshotPayload_error (data : List Nat) (e : WfErr)
    (h : screenshotPayload data = Except.error e) : e = WfErr.valueError := by
  unfold screenshotPayload at h
  by_cases hd : data.take 1 = [35]
  · rw [if_pos hd] at h
    cases h1 : pyIntBytes ((data.drop 1).take 1) with
    | none =>
      rw [h1] at h
      injection h with h2
      exact h2.symm
    | some nd =>
      simp only [h1] at h
      cases h2 : pyIntBytes ((data.drop 2).take nd) with
      | none =>
        simp only [h2] at h
        injection h with h3
        exact h3.symm
      | some len =>
        simp only [h2] at h
        simp at h
  · rw [if_neg hd] at h
    simp at h

/-- Claim C6: `_drain_after_block` is not a method of `KeysightScope` (its
`def` is nested inside the body of `_drain_input`), so the attribute lookup
fails; hence `_read_waveform_binary` with a non-empty payload signals the
`AttributeError` at the post-block drain step and never returns the decoded
waveform, while the identical lookup in `export_screenshot_png` is swallowed
by its surrounding `try`/`except`: the export never surfaces the
`AttributeError` — its result is either the written payload or the
header-parsing `ValueError` of scpi.py:434, which is raised before the
drain call. -/
theorem claim_C6 :
    hasMethod "_drain_after_block" = false ∧
    (∀ (pre : List ℚ) (payload : List Nat), 10 ≤ pre.length → payload ≠ [] →
      readWaveformBinaryCore pre payload = Except.error WfErr.attributeError) ∧
    (∀ data : List Nat,
      exportScreenshotPng data = Except.error WfErr.valueError ∨
      ∃ p, exportScreenshotPng data = Except.ok p) := by
  refine ⟨by decide, ?_, ?_⟩
  · intro pre payload hlen hne
    unfold readWaveformBinaryCore
    rw [if_neg (by omega)]
    rfl
  · intro data
    cases h : screenshotPayload data with
    | error e =>
      left
      have he := screenshotPayload_error data e h
      subst he
      unfold exportScreenshotPng
      rw [h]
    | ok p =>
      right
      refine ⟨p, ?_⟩
      unfold exportScreenshotPng
      rw [h]
      rfl

/-- Claim C6 witness: a valid 10-field preamble and the one-byte payload
`[128]` still produce the `AttributeError`, and the screenshot export of a
well-formed `#`-block response does not surface it: it returns a payload or
at worst the header-parsing `ValueError`. -/
theorem claim_C6_witness :
    readWaveformBinaryCore [0, 0, 1000, 1, 1/1000000, 0, 0, 1/25, 0, 128]
        [128] = Except.error WfErr.attributeError ∧
    (exportScreenshotPng [35, 49, 51, 1, 2, 3, 10] =
        Except.error WfErr.valueError ∨
      ∃ p, exportScreenshotPng [35, 49, 51, 1, 2, 3, 10] = Except.ok p) :=
  ⟨claim_C6.2.1 [0, 0, 1000, 1, 1/1000000, 0, 0, 1/25, 0, 128] [128]
      (by decide) (by decide),
   claim_C6.2.2 [35, 49, 51, 1, 2, 3, 10]⟩

/-- Claim C7, counterexample.  A zero-length raw sample array with a valid
10-field preamble does not yield two empty sequences from the binary
waveform path: it signals an error (the `AttributeError` of the
`self._drain_after_block()` call at scpi.py:508, which precedes the
explicit `if not payload: raise RuntimeError("No data ...")` at
scpi.py:510-511 — either way the call errors instead of returning). -/
theorem claim_C7_cex :
    readWaveformBinaryCore [0, 0, 1000, 1, 1/1000000, 0, 0, 1/25, 0, 128] [] =
      Except.error WfErr.attributeError := by
  rfl

/-- Claim C7, amended.  The pure elementwise decode of a zero-length array
yields two zero-length sequences, and the legacy ASCII path returns two
empty sequences without error on empty input; the binary read path, by
contrast, treats an empty payload as an error (see the counterexample). -/
theorem claim_C7 :
    (∀ xinc xorg xref yinc yorg yref : ℚ,
        decodeWaveform xinc xorg xref yinc yorg yref [] = ([], [])) ∧
    (∀ pre : List ℚ, 10 ≤ pre.length →
        readWaveformAsciiCore pre [] = Except.ok ([], [])) := by
  refine ⟨fun _ _ _ _ _ _ => rfl, ?_⟩
  intro pre hlen
  unfold readWaveformAsciiCore
  rw [if_neg (by omega)]
  rfl

/-- Claim C7 witness: the valid 10-field spec preamble with an empty value
list decodes to two empty sequences on the ASCII path. -/
theorem claim_C7_witness :
    readWaveformAsciiCore [0, 0, 1000, 1, 1/1000000, 0, 0, 1/25, 0, 128] [] =
      Except.ok ([], []) :=
  claim_C7.2 [0, 0, 1000, 1, 1/1000000, 0, 0, 1/25, 0, 128] (by decide)

/-- Claim C8: in the ASCII path the scaling formula is applied if and only
if `need_scale` holds, and `need_scale` holds exactly when more than 80 of
the first (up to) 100 values are within `1e-6` of an integer and the
preamble scaling is non-trivial (`y_increment` differing from 1 by more
than `1e-9`, or `|y_origin| > 1e-12`, or `|y_reference| > 1e-9`); otherwise
the parsed values are returned unchanged. -/
theorem claim_C8 (pre : List ℚ) (y_in : List ℚ) (hlen : 10 ≤ pre.length) :
    (need_scale y_in (pre.getD 7 0) (pre.getD 8 0) (pre.getD 9 0) = true ↔
      (80 < ((y_in.take 100).filter
          (fun v => decide (|v - (Rat.floor (v + 1/2) : ℚ)| < 1/1000000))).length ∧
        (1/1000000000 < |pre.getD 7 0 - 1| ∨
         1/1000000000000 < |pre.getD 8 0| ∨
         1/1000000000 < |pre.getD 9 0|))) ∧
    ∃ t, readWaveformAsciiCore pre y_in =
      Except.ok (t,
        if need_scale y_in (pre.getD 7 0) (pre.getD 8 0) (pre.getD 9 0) then
          y_in.map (fun v => (v - pre.getD 9 0) * pre.getD 7 0 + pre.getD 8 0)
        else y_in) := by
  constructor
  · unfold need_scale
    cases y_in with
    | nil => simp
    | cons a tl =>
      simp only [List.isEmpty_cons, Bool.false_eq_true, if_false,
        Bool.and_eq_true, Bool.or_eq_true, decide_eq_true_eq, or_assoc]
  · unfold readWaveformAsciiCore
    rw [if_neg (by omega)]
    exact ⟨_, rfl⟩

/-- Claim C8 witness: with the spec preamble (non-trivial scaling) and five
integer values out of five inspected, fewer than 81 near-integer values are
found, so no scaling is applied and the values pass through unchanged. -/
theorem claim_C8_witness :
    ∃ t, readWaveformAsciiCore [0, 0, 1000, 1, 1/1000000, 0, 0, 1/25, 0, 128]
        [1, 2, 3, 4, 5] =
      Except.ok (t,
        if need_scale [1, 2, 3, 4, 5] (1/25) 0 128 then
          [1, 2, 3, 4, 5].map (fun v => (v - 128) * (1/25) + 0)
        else [1, 2, 3, 4, 5]) :=
  (claim_C8 [0, 0, 1000, 1, 1/1000000, 0, 0, 1/25, 0, 128] [1, 2, 3, 4, 5]
    (by decide)).2

/-- Claim C9: a preamble with fewer than 10 comma-separated fields makes
both the binary and the ASCII waveform paths signal the response-shape
error before any decode is attempted — the result is the shape error for
every possible sample payload. -/
theorem claim_C9 :
    (∀ (pre : List ℚ) (payload : List Nat), pre.length < 10 →
        readWaveformBinaryCore pre payload = Except.error WfErr.shape) ∧
    (∀ (pre y_in : List ℚ), pre.length < 10 →
        readWaveformAsciiCore pre y_in = Except.error WfErr.shape) := by
  constructor
  · intro pre payload h
    unfold readWaveformBinaryCore
    rw [if_pos h]
  · intro pre y_in h
    unfold readWaveformAsciiCore
    rw [if_pos h]

/-- Claim C9 witness: a 4-field preamble is rejected with the shape error on
both paths, regardless of the payload handed over. -/
theorem claim_C9_witness :
    readWaveformBinaryCore [0, 0, 1000, 1] [1, 2, 3] =
      Except.error WfErr.shape ∧
    readWaveformAsciiCore [0, 0, 1000, 1] [5, 6] =
      Except.error WfErr.shape :=
  ⟨claim_C9.1 [0, 0, 1000, 1] [1, 2, 3] (by decide),
   claim_C9.2 [0, 0, 1000, 1] [5, 6] (by decide)⟩
